import Mathlib

/-!
Shallow embedding of the welding thermal-field engine from the repository
`welding-report`.  The repository contains two near-duplicate variants of the
engine:

* `cpp-weld-2/WeldingSimulation.cpp` (class `WeldingSimulation`), and
* `cpp-weld/main.cpp` (class `TIGSimulator`).

Scalar arithmetic is embedded over an arbitrary linear ordered field `α`
(instantiated at `ℚ` for executable checks and at `ℝ` where the heat-source
exponential is involved).  Temperature fields are total functions `ℕ → α` over
the flattened row-major cell index `idx i j = j * nx + i`.
-/

namespace Welding

open MeasureTheory Set Real

/-- Material record: base properties and thermal thresholds, as in class
`Material` / the `mat_*` fields of `TIGConfig`. -/
structure Material (α : Type) where
  rho : α
  cp : α
  k : α
  T_melt : α
  T_crit : α

variable {α : Type} [LinearOrderedField α]

/-- `Material::get_k`: three-regime piecewise thermal conductivity. -/
def Material.get_k (m : Material α) (T : α) : α :=
  if T < m.T_crit then m.k
  else if T < m.T_melt then m.k * (1 + (T - m.T_crit) / (m.T_melt - m.T_crit) * 0.1)
  else m.k * 1.1

/-- `Material::get_cp`: three-regime piecewise specific heat. -/
def Material.get_cp (m : Material α) (T : α) : α :=
  if T < m.T_crit then m.cp
  else if T < m.T_melt then m.cp * (1 + (T - m.T_crit) / (m.T_melt - m.T_crit) * 0.2)
  else m.cp * 1.2

/-- `Material::get_rho`: three-regime piecewise density. -/
def Material.get_rho (m : Material α) (T : α) : α :=
  if T < m.T_crit then m.rho
  else if T < m.T_melt then m.rho * (1 - (T - m.T_crit) / (m.T_melt - m.T_crit) * 0.05)
  else m.rho * 0.95

/-- Configuration record (`SimulationConfig` / `TIGConfig`): the fields the
verified claims depend on. -/
structure SimConfig (α : Type) where
  Lx : α
  Ly : α
  thickness : α
  nx : ℕ
  ny : ℕ
  mat1 : Material α
  mat2 : Material α
  V : α
  I : α
  eta : α
  v_weld : α
  x_start : α
  y_arc : α
  a : α
  b : α
  cf : α
  cr : α
  ff : α
  fr : α
  T0 : α
  dt : α
  weld_process : String
  use_gas : Bool

/-- Row-major flattened index `idx(i, j) = j * nx + i`. -/
def idx (cfg : SimConfig α) (i j : ℕ) : ℕ := j * cfg.nx + i

/-- Grid coordinate `x[i] = i * Lx / (nx - 1)` (`initializeGrid`). -/
def xcoord (cfg : SimConfig α) (i : ℕ) : α :=
  (i : α) * cfg.Lx / ((cfg.nx - 1 : ℕ) : α)

/-- Grid coordinate `y[j] = -Ly/2 + j * Ly / (ny - 1)` (`initializeGrid`). -/
def ycoord (cfg : SimConfig α) (j : ℕ) : α :=
  -cfg.Ly / 2 + (j : α) * cfg.Ly / ((cfg.ny - 1 : ℕ) : α)

/-- Flattened meshgrid `X[idx(i,j)] = x[i]`. -/
def Xc (cfg : SimConfig α) (n : ℕ) : α := xcoord cfg (n % cfg.nx)

/-- Flattened meshgrid `Y[idx(i,j)] = y[j]`. -/
def Yc (cfg : SimConfig α) (n : ℕ) : α := ycoord cfg (n / cfg.nx)

/-- Grid spacing `dx_ = x_[1] - x_[0]` (WeldingSimulation). -/
def dx (cfg : SimConfig α) : α := xcoord cfg 1 - xcoord cfg 0

/-- Grid spacing `dy_ = y_[1] - y_[0]` (WeldingSimulation). -/
def dy (cfg : SimConfig α) : α := ycoord cfg 1 - ycoord cfg 0

/-- TIGSimulator's grid spacing `dx = Lx / (nx - 1)`. -/
def tigDx (cfg : SimConfig α) : α := cfg.Lx / ((cfg.nx - 1 : ℕ) : α)

/-- TIGSimulator's grid spacing `dy = Ly / (ny - 1)`. -/
def tigDy (cfg : SimConfig α) : α := cfg.Ly / ((cfg.ny - 1 : ℕ) : α)

/-- TIGSimulator's meshgrid `X[idx] = i * dx`. -/
def tigXc (cfg : SimConfig α) (n : ℕ) : α := ((n % cfg.nx : ℕ) : α) * tigDx cfg

/-- TIGSimulator's meshgrid `Y[idx] = -Ly/2 + j * dy`. -/
def tigYc (cfg : SimConfig α) (n : ℕ) : α := -cfg.Ly / 2 + ((n / cfg.nx : ℕ) : α) * tigDy cfg

/-- Material interface `midpoint = Lx / 2`. -/
def midpoint (cfg : SimConfig α) : α := cfg.Lx / 2

/-- Material selection: material 1 where `X[idx] < midpoint`, material 2
otherwise (`computeMaterialProperties` / `compute_material_properties`). -/
def matAt (cfg : SimConfig α) (n : ℕ) : Material α :=
  if Xc cfg n < midpoint cfg then cfg.mat1 else cfg.mat2

/-- Per-cell conductivity array `k_arr` evaluated from field `T`. -/
def kArr (cfg : SimConfig α) (T : ℕ → α) (n : ℕ) : α := (matAt cfg n).get_k (T n)

/-- Per-cell specific-heat array `cp_arr` evaluated from field `T`. -/
def cpArr (cfg : SimConfig α) (T : ℕ → α) (n : ℕ) : α := (matAt cfg n).get_cp (T n)

/-- Per-cell density array `rho_arr` evaluated from field `T`. -/
def rhoArr (cfg : SimConfig α) (T : ℕ → α) (n : ℕ) : α := (matAt cfg n).get_rho (T n)

/-- `WeldingSimulation::isBoundary`: `i == 0 || i == nx-1 || j == 0 || j == ny-1`. -/
def isBoundary (cfg : SimConfig α) (i j : ℕ) : Bool :=
  i == 0 || i == cfg.nx - 1 || j == 0 || j == cfg.ny - 1

/-- One cell of `WeldingSimulation::solveTimeStep`: Dirichlet boundary, else the
explicit update with the per-cell stability-limited effective step, then the
clamp into `[T0, T_MAX_REASONABLE]` with `T_MAX_REASONABLE = 5000`. -/
def stepCell (cfg : SimConfig α) (T Qvol : ℕ → α) (i j : ℕ) : α :=
  if isBoundary cfg i j then cfg.T0
  else
    let n := idx cfg i j
    let rhocp := rhoArr cfg T n * cpArr cfg T n
    let alpha := kArr cfg T n / rhocp
    let d2Tdx2 := (T (idx cfg (i + 1) j) - 2 * T n + T (idx cfg (i - 1) j)) / (dx cfg * dx cfg)
    let d2Tdy2 := (T (idx cfg i (j + 1)) - 2 * T n + T (idx cfg i (j - 1))) / (dy cfg * dy cfg)
    let heat_source := Qvol n / rhocp
    let max_dt_stable := 0.4 / (alpha * (1 / (dx cfg * dx cfg) + 1 / (dy cfg * dy cfg)))
    let dt_effective := min cfg.dt max_dt_stable
    let v := T n + dt_effective * (alpha * (d2Tdx2 + d2Tdy2) + heat_source)
    if v > 5000 then 5000 else if v < cfg.T0 then cfg.T0 else v

/-- The whole-field sweep of `WeldingSimulation::solveTimeStep` (the new field
`T_new`, which afterwards replaces `T_`). -/
def solveTimeStep (cfg : SimConfig α) (T Qvol : ℕ → α) : ℕ → α :=
  fun n => stepCell cfg T Qvol (n % cfg.nx) (n / cfg.nx)

/-- `T_max_[idx] = std::max(T_max_[idx], T_[idx])` after each step. -/
def updateTmax (Tmax T : ℕ → α) : ℕ → α := fun n => max (Tmax n) (T n)

/-- One cell of `TIGSimulator::time_step_explicit`: Dirichlet boundary, else the
explicit update with the nominal `dt` (no stability clamp, no value clamp). -/
def tigStepCell (cfg : SimConfig α) (T Qvol : ℕ → α) (i j : ℕ) : α :=
  if isBoundary cfg i j then cfg.T0
  else
    let n := idx cfg i j
    let alpha := kArr cfg T n / (rhoArr cfg T n * cpArr cfg T n)
    let d2Tdx2 :=
      (T (idx cfg (i + 1) j) - 2 * T n + T (idx cfg (i - 1) j)) / (tigDx cfg * tigDx cfg)
    let d2Tdy2 :=
      (T (idx cfg i (j + 1)) - 2 * T n + T (idx cfg i (j - 1))) / (tigDy cfg * tigDy cfg)
    let heat_source := Qvol n / (rhoArr cfg T n * cpArr cfg T n)
    T n + cfg.dt * (alpha * (d2Tdx2 + d2Tdy2) + heat_source)

/-- The whole-field sweep of `TIGSimulator::time_step_explicit`. -/
def tigStepField (cfg : SimConfig α) (T Qvol : ℕ → α) : ℕ → α :=
  fun n => tigStepCell cfg T Qvol (n % cfg.nx) (n / cfg.nx)

/-- TIGSimulator peak update: `if (T[i] > T_max[i]) T_max[i] = T[i]`. -/
def tigUpdateTmax (Tmax T : ℕ → α) : ℕ → α :=
  fun n => if T n > Tmax n then T n else Tmax n

/-- Efficiency derivation performed by the `WeldingSimulation` constructor from
`(weld_process, use_gas)`; an unrecognized process leaves `eta` unchanged. -/
def deriveEta (process : String) (gas : Bool) (eta0 : α) : α :=
  if process = "TIG" then (if gas then 0.75 else 0.65)
  else if process = "Electrode" then 0.85
  else eta0

/-- `Q_total_ = eta * V * I` with the constructor-derived efficiency. -/
def SimConfig.Qtotal (cfg : SimConfig α) : α :=
  deriveEta cfg.weld_process cfg.use_gas cfg.eta * cfg.V * cfg.I

/-- The constructor-produced state: derived efficiency and power, and both
temperature fields initialized to the uniform ambient value `T0`. -/
structure SimState (α : Type) where
  eta : α
  Qtotal : α
  T : ℕ → α
  Tmax : ℕ → α

/-- The `WeldingSimulation` constructor (its claim-relevant effects). It has no
failure path: no grid-dimension or other validation is performed. -/
def mkSimulation (cfg : SimConfig α) : SimState α :=
  let e := deriveEta cfg.weld_process cfg.use_gas cfg.eta
  { eta := e
    Qtotal := e * cfg.V * cfg.I
    T := fun _ => cfg.T0
    Tmax := fun _ => cfg.T0 }

/-- The driver `main` of `cpp-weld-2`: the only configuration rejection before
construction is an invalid `weld_process` string. -/
def simMain (cfg : SimConfig α) : Except String (SimState α) :=
  if cfg.weld_process ≠ "TIG" ∧ cfg.weld_process ≠ "Electrode" then
    Except.error "Invalid weld_process. Use TIG or Electrode."
  else Except.ok (mkSimulation cfg)

/-- The pointwise flux formula of `WeldingSimulation::computeGoldakHeatFlux` at
local offsets `(xi, eta)` from the arc: 2-parameter normalization with
coefficient `(f * Q_total) / (a * b * pi)` and Gaussian
`exp(-xi^2/a^2 - eta^2/b^2)`; the front fraction applies when `xi >= 0`. -/
noncomputable def goldakFluxProfileA (cfg : SimConfig ℝ) (Qtot xi eta : ℝ) : ℝ :=
  if 0 ≤ xi then
    cfg.ff * Qtot / (cfg.a * cfg.b * Real.pi) *
      Real.exp (-(xi * xi) / (cfg.a * cfg.a) - eta * eta / (cfg.b * cfg.b))
  else
    cfg.fr * Qtot / (cfg.a * cfg.b * Real.pi) *
      Real.exp (-(xi * xi) / (cfg.a * cfg.a) - eta * eta / (cfg.b * cfg.b))

/-- `WeldingSimulation::computeGoldakHeatFlux` evaluated at cell `n`:
`xi = X[n] - x_arc`, `eta = Y[n] - y_arc`. -/
noncomputable def computeGoldakHeatFlux (cfg : SimConfig ℝ) (Qtot x_arc : ℝ) (n : ℕ) : ℝ :=
  goldakFluxProfileA cfg Qtot (Xc cfg n - x_arc) (Yc cfg n - cfg.y_arc)

/-- The pointwise flux formula of `goldak_heat_flux` in `cpp-weld`: 4-parameter
normalization with coefficient `(6 * f * Q) / (a * b * c * pi * sqrt(pi))` and
Gaussian `exp(-3 * (xi^2/c^2 + eta^2/b^2))`, `c = cf` for `xi >= 0`, else `cr`. -/
noncomputable def goldakFluxProfileB (cfg : SimConfig ℝ) (Qtot xi eta : ℝ) : ℝ :=
  if 0 ≤ xi then
    6 * cfg.ff * Qtot / (cfg.a * cfg.b * cfg.cf * Real.pi * Real.sqrt Real.pi) *
      Real.exp (-3 * (xi * xi / (cfg.cf * cfg.cf) + eta * eta / (cfg.b * cfg.b)))
  else
    6 * cfg.fr * Qtot / (cfg.a * cfg.b * cfg.cr * Real.pi * Real.sqrt Real.pi) *
      Real.exp (-3 * (xi * xi / (cfg.cr * cfg.cr) + eta * eta / (cfg.b * cfg.b)))

/-- `goldak_heat_flux` of `cpp-weld` evaluated at cell `n` of the TIG mesh. -/
noncomputable def tigHeatFlux (cfg : SimConfig ℝ) (Qtot x_arc : ℝ) (n : ℕ) : ℝ :=
  goldakFluxProfileB cfg Qtot (tigXc cfg n - x_arc) (tigYc cfg n - cfg.y_arc)

/-- The per-step volumetric source of `WeldingSimulation::run`: when
`x_arc <= Lx` the heat-flux computation runs and the surface flux is divided by
the plate thickness; otherwise `Qvol` keeps its all-zero initialization and the
flux computation is suppressed. -/
noncomputable def driverQvol (cfg : SimConfig ℝ) (t : ℝ) : ℕ → ℝ :=
  let x_arc := cfg.x_start + cfg.v_weld * t
  if x_arc ≤ cfg.Lx then
    fun n => computeGoldakHeatFlux cfg cfg.Qtotal x_arc n / cfg.thickness
  else fun _ => 0

/-- `TIGSimulator::apply_heat_source`: when `x_arc <= Lx` the surface flux is
used directly as `Q_vol` (no thickness division); otherwise `Q_vol` is zeroed. -/
noncomputable def tigQvol (cfg : SimConfig ℝ) (t : ℝ) : ℕ → ℝ :=
  let x_arc := cfg.x_start + cfg.v_weld * t
  if x_arc ≤ cfg.Lx then
    fun n => tigHeatFlux cfg (cfg.eta * cfg.V * cfg.I) x_arc n
  else fun _ => 0

/-- The time loop of `WeldingSimulation::run` after `k` steps (step `k` uses
`t = k * dt`): pairs of (current field, peak field), both starting uniform at
`T0` as the constructor initializes them. -/
noncomputable def weldRun (cfg : SimConfig ℝ) : ℕ → (ℕ → ℝ) × (ℕ → ℝ)
  | 0 => (fun _ => cfg.T0, fun _ => cfg.T0)
  | k + 1 =>
      let s := weldRun cfg k
      let T1 := solveTimeStep cfg s.1 (driverQvol cfg (((k + 1 : ℕ) : ℝ) * cfg.dt))
      (T1, updateTmax s.2 T1)

/-- The time loop of `TIGSimulator::run_simulation` after `k` steps. -/
noncomputable def tigRun (cfg : SimConfig ℝ) : ℕ → (ℕ → ℝ) × (ℕ → ℝ)
  | 0 => (fun _ => cfg.T0, fun _ => cfg.T0)
  | k + 1 =>
      let s := tigRun cfg k
      let T1 := tigStepField cfg s.1 (tigQvol cfg (((k + 1 : ℕ) : ℝ) * cfg.dt))
      (T1, tigUpdateTmax s.2 T1)

/-- Integral of the 2-parameter flux over the forward half plane
`{(x, y) : x >= x_arc}` (the cells with `xi >= 0`). -/
noncomputable def forwardIntegralA (cfg : SimConfig ℝ) (Qtot x_arc : ℝ) : ℝ :=
  ∫ x in Ioi x_arc, ∫ y : ℝ, goldakFluxProfileA cfg Qtot (x - x_arc) (y - cfg.y_arc)

/-- Integral of the 2-parameter flux over the rearward half plane
`{(x, y) : x < x_arc}` (the cells with `xi < 0`). -/
noncomputable def rearIntegralA (cfg : SimConfig ℝ) (Qtot x_arc : ℝ) : ℝ :=
  ∫ x in Iio x_arc, ∫ y : ℝ, goldakFluxProfileA cfg Qtot (x - x_arc) (y - cfg.y_arc)

/-- Integral of the 4-parameter flux over the forward half plane. -/
noncomputable def forwardIntegralB (cfg : SimConfig ℝ) (Qtot x_arc : ℝ) : ℝ :=
  ∫ x in Ioi x_arc, ∫ y : ℝ, goldakFluxProfileB cfg Qtot (x - x_arc) (y - cfg.y_arc)

/-- Integral of the 4-parameter flux over the rearward half plane. -/
noncomputable def rearIntegralB (cfg : SimConfig ℝ) (Qtot x_arc : ℝ) : ℝ :=
  ∫ x in Iio x_arc, ∫ y : ℝ, goldakFluxProfileB cfg Qtot (x - x_arc) (y - cfg.y_arc)

/-- Mirror symmetry of a flattened field across the horizontal centerline:
cell `(i, j)` carries the same value as cell `(i, ny-1-j)`. -/
def MirrorSym (cfg : SimConfig α) (F : ℕ → α) : Prop :=
  ∀ i j, i < cfg.nx → j < cfg.ny → F (idx cfg i j) = F (idx cfg i (cfg.ny - 1 - j))

/-- The claim's spec-side per-cell diffusivity `alpha = k / (rho * cp)`. -/
def specAlpha (cfg : SimConfig α) (T : ℕ → α) (n : ℕ) : α :=
  kArr cfg T n / (rhoArr cfg T n * cpArr cfg T n)

/-- The claim's spec-side 5-point Laplacian `d2T/dx2 + d2T/dy2` over the
previous-step field. -/
def specLaplacian (cfg : SimConfig α) (T : ℕ → α) (i j : ℕ) : α :=
  (T (idx cfg (i + 1) j) - 2 * T (idx cfg i j) + T (idx cfg (i - 1) j)) / (dx cfg * dx cfg) +
  (T (idx cfg i (j + 1)) - 2 * T (idx cfg i j) + T (idx cfg i (j - 1))) / (dy cfg * dy cfg)

/-- The claim's spec-side per-cell effective step
`dt_eff = min(dt, 0.4 / (alpha * (1/dx^2 + 1/dy^2)))`. -/
def specDtEff (cfg : SimConfig α) (alpha : α) : α :=
  min cfg.dt (0.4 / (alpha * (1 / (dx cfg * dx cfg) + 1 / (dy cfg * dy cfg))))

/-- The claim's spec-side interior update
`T_old + dt_eff * (alpha * laplacian + Qvol / (rho * cp))`. -/
def specUpdate (cfg : SimConfig α) (T Qvol : ℕ → α) (i j : ℕ) : α :=
  let n := idx cfg i j
  let al := specAlpha cfg T n
  T n + specDtEff cfg al *
    (al * specLaplacian cfg T i j + Qvol n / (rhoArr cfg T n * cpArr cfg T n))

/-- The clamp of `solveTimeStep` into `[T0, T_MAX_REASONABLE]`. -/
def clampT (cfg : SimConfig α) (v : α) : α :=
  if v > 5000 then 5000 else if v < cfg.T0 then cfg.T0 else v

/-- A unit material whose thresholds are far above the temperatures exercised,
so every property stays at its base value. -/
def matBase : Material ℚ := { rho := 1, cp := 1, k := 1, T_melt := 200000, T_crit := 100000 }

/-- A small 3x3 rational configuration with unit spacing (`Lx = Ly = 2` gives
`dx = dy = 1`) used for concrete evaluations. -/
def cfgQ : SimConfig ℚ :=
  { Lx := 2, Ly := 2, thickness := 1, nx := 3, ny := 3, mat1 := matBase, mat2 := matBase
    V := 0, I := 0, eta := 0, v_weld := 1, x_start := 0, y_arc := 0
    a := 1, b := 1, cf := 1, cr := 1, ff := 1, fr := 1
    T0 := 0, dt := 1, weld_process := "TIG", use_gas := true }

/-- A default-like real configuration (values of `SimulationConfig`). -/
def cfgR : SimConfig ℝ :=
  { Lx := 0.15, Ly := 0.10, thickness := 0.006, nx := 151, ny := 101
    mat1 := { rho := 7850, cp := 500, k := 45, T_melt := 1811, T_crit := 1273 }
    mat2 := { rho := 7900, cp := 500, k := 16.3, T_melt := 1723, T_crit := 1273 }
    V := 25, I := 150, eta := 0.85, v_weld := 0.006, x_start := 0.02, y_arc := 0
    a := 0.005, b := 0.004, cf := 0.003, cr := 0.010, ff := 0.6, fr := 1.4
    T0 := 293, dt := 0.02, weld_process := "TIG", use_gas := true }

section IndexLemmas

lemma idx_mod (cfg : SimConfig α) {i : ℕ} (j : ℕ) (hi : i < cfg.nx) :
    idx cfg i j % cfg.nx = i := by
  rw [idx, Nat.add_comm, Nat.add_mul_mod_self_right, Nat.mod_eq_of_lt hi]

lemma idx_div (cfg : SimConfig α) {i : ℕ} (j : ℕ) (hi : i < cfg.nx) :
    idx cfg i j / cfg.nx = j := by
  have h0 : 0 < cfg.nx := lt_of_le_of_lt (Nat.zero_le _) hi
  rw [idx, Nat.mul_comm, Nat.mul_add_div h0, Nat.div_eq_of_lt hi, Nat.add_zero]

lemma solveTimeStep_idx (cfg : SimConfig α) (T Qvol : ℕ → α) {i : ℕ} (j : ℕ)
    (hi : i < cfg.nx) :
    solveTimeStep cfg T Qvol (idx cfg i j) = stepCell cfg T Qvol i j := by
  rw [solveTimeStep, idx_mod cfg j hi, idx_div cfg j hi]

lemma tigStepField_idx (cfg : SimConfig α) (T Qvol : ℕ → α) {i : ℕ} (j : ℕ)
    (hi : i < cfg.nx) :
    tigStepField cfg T Qvol (idx cfg i j) = tigStepCell cfg T Qvol i j := by
  rw [tigStepField, idx_mod cfg j hi, idx_div cfg j hi]

lemma isBoundary_true_of (cfg : SimConfig α) {i j : ℕ}
    (hb : i = 0 ∨ i = cfg.nx - 1 ∨ j = 0 ∨ j = cfg.ny - 1) :
    isBoundary cfg i j = true := by
  simp only [isBoundary, Bool.or_eq_true, beq_iff_eq]
  tauto

end IndexLemmas

section BoundaryAndPeak

lemma stepCell_boundary (cfg : SimConfig α) (T Qvol : ℕ → α) {i j : ℕ}
    (hb : i = 0 ∨ i = cfg.nx - 1 ∨ j = 0 ∨ j = cfg.ny - 1) :
    stepCell cfg T Qvol i j = cfg.T0 := by
  rw [stepCell, isBoundary_true_of cfg hb]
  rfl

lemma tigStepCell_boundary (cfg : SimConfig α) (T Qvol : ℕ → α) {i j : ℕ}
    (hb : i = 0 ∨ i = cfg.nx - 1 ∨ j = 0 ∨ j = cfg.ny - 1) :
    tigStepCell cfg T Qvol i j = cfg.T0 := by
  rw [tigStepCell, isBoundary_true_of cfg hb]
  rfl

end BoundaryAndPeak

/-- C2: the peak field `T_max` starts at `T0` together with `T`, is updated to
`max(T_max, T_new)` each step in both engine variants, hence is monotonically
non-decreasing across the run and dominates the current field after every
step. -/
theorem C2_peak_monotone (cfg : SimConfig ℝ) (k m : ℕ) :
    (weldRun cfg 0).1 m = cfg.T0 ∧ (weldRun cfg 0).2 m = cfg.T0 ∧
    (weldRun cfg k).2 m ≤ (weldRun cfg (k + 1)).2 m ∧
    (weldRun cfg k).1 m ≤ (weldRun cfg k).2 m ∧
    (tigRun cfg 0).1 m = cfg.T0 ∧ (tigRun cfg 0).2 m = cfg.T0 ∧
    (tigRun cfg k).2 m ≤ (tigRun cfg (k + 1)).2 m ∧
    (tigRun cfg k).1 m ≤ (tigRun cfg k).2 m := by
  refine ⟨rfl, rfl, ?_, ?_, rfl, rfl, ?_, ?_⟩
  · simp only [weldRun, updateTmax]
    exact le_max_left _ _
  · cases k with
    | zero => exact le_of_eq rfl
    | succ n =>
      simp only [weldRun, updateTmax]
      exact le_max_right _ _
  · simp only [tigRun, tigUpdateTmax]
    split
    · exact le_of_lt (by assumption)
    · exact le_refl _
  · cases k with
    | zero => exact le_of_eq rfl
    | succ n =>
      simp only [tigRun, tigUpdateTmax]
      split

      · exact le_refl _
      · exact le_of_not_lt (by assumption)

/-- C6: in both variants, every boundary cell (`i = 0`, `i = nx-1`, `j = 0` or
`j = ny-1`) is forced to `T0` by the step, whatever the previous field and the
heat source, and hence holds `T0` immediately after every step of the run. -/
theorem C6_boundary_forced (cfg : SimConfig ℝ) (T Qvol : ℕ → ℝ) (i j : ℕ)
    (hi : i < cfg.nx) (hj : j < cfg.ny)
    (hb : i = 0 ∨ i = cfg.nx - 1 ∨ j = 0 ∨ j = cfg.ny - 1) :
    solveTimeStep cfg T Qvol (idx cfg i j) = cfg.T0 ∧
    tigStepField cfg T Qvol (idx cfg i j) = cfg.T0 ∧
    (∀ k : ℕ, (weldRun cfg (k + 1)).1 (idx cfg i j) = cfg.T0) ∧
    (∀ k : ℕ, (tigRun cfg (k + 1)).1 (idx cfg i j) = cfg.T0) := by
  refine ⟨?_, ?_, ?_, ?_⟩
  · rw [solveTimeStep_idx cfg T Qvol j hi]
    exact stepCell_boundary cfg T Qvol hb
  · rw [tigStepField_idx cfg T Qvol j hi]
    exact tigStepCell_boundary cfg T Qvol hb
  · intro k
    simp only [weldRun]
    rw [solveTimeStep_idx cfg _ _ j hi]
    exact stepCell_boundary cfg _ _ hb
  · intro k
    simp only [tigRun]
    rw [tigStepField_idx cfg _ _ j hi]
    exact tigStepCell_boundary cfg _ _ hb

/-- Witness for C6 at a concrete boundary cell of the default-like grid. -/
theorem C6_boundary_forced_witness :
    solveTimeStep cfgR (fun _ => 400) (fun _ => 7) (idx cfgR 0 5) = cfgR.T0 :=
  (C6_boundary_forced cfgR (fun _ => 400) (fun _ => 7) 0 5 (by decide) (by decide)
    (Or.inl rfl)).1

/-- C8 (amended): construction performs no grid-dimension validation — for any
`nx`, `ny` whatsoever, a config with a recognized `weld_process` is accepted and
the simulation state is built. -/
theorem C8_no_grid_validation (cfg : SimConfig ℝ)
    (h : cfg.weld_process = "TIG" ∨ cfg.weld_process = "Electrode") :
    simMain cfg = Except.ok (mkSimulation cfg) := by
  rcases h with h | h <;> simp [simMain, h]

/-- Witness for C8 (amended) at a concrete 1x1-grid configuration. -/
theorem C8_no_grid_validation_witness :
    simMain { cfgR with nx := 1, ny := 1 } =
      Except.ok (mkSimulation { cfgR with nx := 1, ny := 1 }) :=
  C8_no_grid_validation { cfgR with nx := 1, ny := 1 } (Or.inl rfl)

/-- Counterexample to C8 as stated: with `nx = 2 < 3` and `ny = 2 < 3` the
construction succeeds — no configuration error is raised. -/
theorem C8_construction_succeeds_cex :
    ({ cfgQ with nx := 2, ny := 2 } : SimConfig ℚ).nx < 3 ∧
    ({ cfgQ with nx := 2, ny := 2 } : SimConfig ℚ).ny < 3 ∧
    (simMain ({ cfgQ with nx := 2, ny := 2 } : SimConfig ℚ)).isOk = true := by
  refine ⟨by decide, by decide, ?_⟩
  have h : simMain ({ cfgQ with nx := 2, ny := 2 } : SimConfig ℚ) =
      Except.ok (mkSimulation ({ cfgQ with nx := 2, ny := 2 } : SimConfig ℚ)) := by
    simp [simMain, cfgQ]
  rw [h]
  rfl

/-- C9: the efficiency is derived from `(weld_process, use_gas)`:
TIG with gas gives 0.75, TIG without gas 0.65, Electrode gives 0.85 regardless
of the gas flag; any other process string is rejected by the driver before the
simulation is constructed. -/
theorem C9_efficiency_derivation (cfg : SimConfig ℝ) :
    (cfg.weld_process = "TIG" → cfg.use_gas = true → (mkSimulation cfg).eta = 0.75) ∧
    (cfg.weld_process = "TIG" → cfg.use_gas = false → (mkSimulation cfg).eta = 0.65) ∧
    (cfg.weld_process = "Electrode" → (mkSimulation cfg).eta = 0.85) ∧
    (cfg.weld_process ≠ "TIG" → cfg.weld_process ≠ "Electrode" →
      simMain cfg = Except.error "Invalid weld_process. Use TIG or Electrode.") := by
  refine ⟨?_, ?_, ?_, ?_⟩
  · intro h1 h2
    simp [mkSimulation, deriveEta, h1, h2]
  · intro h1 h2
    simp [mkSimulation, deriveEta, h1, h2]
  · intro h1
    simp [mkSimulation, deriveEta, h1]
  · intro h1 h2
    simp [simMain, h1, h2]

/-- Witness for C9: TIG with gas on the default-like config yields 0.75, and a
concrete unknown process string is rejected. -/
theorem C9_efficiency_derivation_witness :
    (mkSimulation cfgR).eta = 0.75 ∧
    simMain { cfgR with weld_process := "MIG" } =
      Except.error "Invalid weld_process. Use TIG or Electrode." :=
  ⟨(C9_efficiency_derivation cfgR).1 rfl rfl,
    (C9_efficiency_derivation { cfgR with weld_process := "MIG" }).2.2.2
      (by decide) (by decide)⟩

section InteriorCharacterization

lemma isBoundary_false_of (cfg : SimConfig α) {i j : ℕ}
    (h1 : 0 < i) (h2 : i < cfg.nx - 1) (h3 : 0 < j) (h4 : j < cfg.ny - 1) :
    isBoundary cfg i j = false := by
  simp only [isBoundary, Bool.or_eq_false_iff, beq_eq_false_iff_ne, ne_eq]
  omega

lemma dx_eq_tigDx (cfg : SimConfig α) : dx cfg = tigDx cfg := by
  simp only [dx, xcoord, tigDx, Nat.cast_one, Nat.cast_zero, one_mul, zero_mul, zero_div,
    sub_zero]

lemma dy_eq_tigDy (cfg : SimConfig α) : dy cfg = tigDy cfg := by
  simp only [dy, ycoord, tigDy, Nat.cast_one, Nat.cast_zero, one_mul, zero_mul, zero_div]
  ring

lemma stepCell_interior (cfg : SimConfig α) (T Qvol : ℕ → α) {i j : ℕ}
    (h1 : 0 < i) (h2 : i < cfg.nx - 1) (h3 : 0 < j) (h4 : j < cfg.ny - 1) :
    stepCell cfg T Qvol i j = clampT cfg (specUpdate cfg T Qvol i j) := by
  rw [stepCell, isBoundary_false_of cfg h1 h2 h3 h4]
  rfl

lemma tigStepCell_interior (cfg : SimConfig α) (T Qvol : ℕ → α) {i j : ℕ}
    (h1 : 0 < i) (h2 : i < cfg.nx - 1) (h3 : 0 < j) (h4 : j < cfg.ny - 1) :
    tigStepCell cfg T Qvol i j =
      T (idx cfg i j) + cfg.dt *
        (specAlpha cfg T (idx cfg i j) * specLaplacian cfg T i j +
          Qvol (idx cfg i j) / (rhoArr cfg T (idx cfg i j) * cpArr cfg T (idx cfg i j))) := by
  rw [tigStepCell, isBoundary_false_of cfg h1 h2 h3 h4]
  rw [specAlpha, specLaplacian, dx_eq_tigDx, dy_eq_tigDy]
  rfl

lemma stepCell_bounds (cfg : SimConfig α) (T Qvol : ℕ → α) (i j : ℕ)
    (h50 : cfg.T0 ≤ 5000) :
    cfg.T0 ≤ stepCell cfg T Qvol i j ∧ stepCell cfg T Qvol i j ≤ 5000 := by
  simp only [stepCell]
  split
  · exact ⟨le_refl _, h50⟩
  · split_ifs with hv1 hv2
    · exact ⟨h50, le_refl _⟩
    · exact ⟨le_refl _, h50⟩
    · exact ⟨le_of_not_lt hv2, le_of_not_lt hv1⟩

end InteriorCharacterization

/-- C1 (amended): at every interior cell, `WeldingSimulation::solveTimeStep`
stores the clamp into `[T0, 5000]` of
`T_old + dt_eff * (alpha * laplacian + Q_vol/(rho*cp))` with the per-cell
`dt_eff = min(dt, 0.4/(alpha*(1/dx^2+1/dy^2)))`, properties evaluated at the
previous-step temperature; `TIGSimulator::time_step_explicit` instead always
uses the nominal `dt`, with no per-cell stability bound and no clamp. -/
theorem C1_interior_update (cfg : SimConfig ℝ) (T Qvol : ℕ → ℝ) (i j : ℕ)
    (h1 : 0 < i) (h2 : i < cfg.nx - 1) (h3 : 0 < j) (h4 : j < cfg.ny - 1) :
    solveTimeStep cfg T Qvol (idx cfg i j) = clampT cfg (specUpdate cfg T Qvol i j) ∧
    tigStepField cfg T Qvol (idx cfg i j) =
      T (idx cfg i j) + cfg.dt *
        (specAlpha cfg T (idx cfg i j) * specLaplacian cfg T i j +
          Qvol (idx cfg i j) / (rhoArr cfg T (idx cfg i j) * cpArr cfg T (idx cfg i j))) := by
  have hi : i < cfg.nx := by omega
  constructor
  · rw [solveTimeStep_idx cfg T Qvol j hi]
    exact stepCell_interior cfg T Qvol h1 h2 h3 h4
  · rw [tigStepField_idx cfg T Qvol j hi]
    exact tigStepCell_interior cfg T Qvol h1 h2 h3 h4

/-- Witness for C1 (amended) at the interior cell (1,1) of the default grid. -/
theorem C1_interior_update_witness :
    solveTimeStep cfgR (fun _ => 300) (fun _ => 2) (idx cfgR 1 1) =
      clampT cfgR (specUpdate cfgR (fun _ => 300) (fun _ => 2) 1 1) :=
  (C1_interior_update cfgR (fun _ => 300) (fun _ => 2) 1 1 (by decide) (by decide)
    (by decide) (by decide)).1

/-- Counterexample to C1 as stated: in the `TIGSimulator` variant the interior
update does not follow the claimed per-cell `dt_eff` formula. At a concrete
cell where `dt > dt_max` the stored value differs from the claimed one. -/
theorem C1_tig_ignores_dtEff_cex :
    tigStepField cfgQ (fun n => if n = 4 then 0 else 1) (fun _ => 0) (idx cfgQ 1 1) ≠
      specUpdate cfgQ (fun n => if n = 4 then 0 else 1) (fun _ => 0) 1 1 := by
  norm_num [tigStepField, tigStepCell, specUpdate, specAlpha, specLaplacian, specDtEff,
    idx, isBoundary, kArr, cpArr, rhoArr, matAt, Material.get_k, Material.get_cp,
    Material.get_rho, tigDx, tigDy, dx, dy, Xc, xcoord, ycoord, midpoint, cfgQ, matBase,
    min_def]

/-- C5 (amended): in `WeldingSimulation`, provided `T0 ≤ 5000`, every cell value
produced by a step (and hence by every step of the run) lies in `[T0, 5000]`;
the clamp is applied silently, not reported. The `TIGSimulator` variant applies
no clamp (see the counterexample). -/
theorem C5_clamped_range (cfg : SimConfig ℝ) (T Qvol : ℕ → ℝ) (n : ℕ)
    (h50 : cfg.T0 ≤ 5000) :
    (cfg.T0 ≤ solveTimeStep cfg T Qvol n ∧ solveTimeStep cfg T Qvol n ≤ 5000) ∧
    (∀ k : ℕ, cfg.T0 ≤ (weldRun cfg (k + 1)).1 n ∧ (weldRun cfg (k + 1)).1 n ≤ 5000) := by
  constructor
  · rw [solveTimeStep]
    exact stepCell_bounds cfg T Qvol _ _ h50
  · intro k
    simp only [weldRun, solveTimeStep]
    exact stepCell_bounds cfg _ _ _ _ h50

/-- Witness for C5 (amended) on the default-like configuration. -/
theorem C5_clamped_range_witness :
    cfgR.T0 ≤ solveTimeStep cfgR (fun _ => 300) (fun _ => 0) 7 ∧
    solveTimeStep cfgR (fun _ => 300) (fun _ => 0) 7 ≤ 5000 :=
  (C5_clamped_range cfgR (fun _ => 300) (fun _ => 0) 7 (by norm_num [cfgR])).1

/-- Counterexample to C5 as stated: the `TIGSimulator` interior update is not
clamped — at a concrete cell the stored value exceeds 5000. -/
theorem C5_tig_not_clamped_cex :
    5000 < tigStepField cfgQ (fun n => if n = 4 then 0 else 6000) (fun _ => 0)
      (idx cfgQ 1 1) := by
  norm_num [tigStepField, tigStepCell, idx, isBoundary, kArr, cpArr, rhoArr, matAt,
    Material.get_k, Material.get_cp, Material.get_rho, tigDx, tigDy, Xc, xcoord,
    midpoint, cfgQ, matBase]

section ZeroPower

lemma goldakFluxProfileA_zeroQ (cfg : SimConfig ℝ) (xi eta : ℝ) :
    goldakFluxProfileA cfg 0 xi eta = 0 := by
  rw [goldakFluxProfileA]
  split_ifs <;> simp

lemma goldakFluxProfileB_zeroQ (cfg : SimConfig ℝ) (xi eta : ℝ) :
    goldakFluxProfileB cfg 0 xi eta = 0 := by
  rw [goldakFluxProfileB]
  split_ifs <;> simp

lemma driverQvol_zeroQ (cfg : SimConfig ℝ) (hQ : cfg.Qtotal = 0) (t : ℝ) (n : ℕ) :
    driverQvol cfg t n = 0 := by
  simp only [driverQvol]
  split_ifs with h
  · simp only [computeGoldakHeatFlux, hQ, goldakFluxProfileA_zeroQ, zero_div]
  · rfl

lemma tigQvol_zeroQ (cfg : SimConfig ℝ) (hQ : cfg.eta * cfg.V * cfg.I = 0) (t : ℝ)
    (n : ℕ) :
    tigQvol cfg t n = 0 := by
  simp only [tigQvol]
  split_ifs with h
  · simp only [tigHeatFlux, hQ, goldakFluxProfileB_zeroQ]
  · rfl

lemma stepCell_uniform_zero (cfg : SimConfig ℝ) (h50 : cfg.T0 ≤ 5000) (i j : ℕ) :
    stepCell cfg (fun _ => cfg.T0) (fun _ => 0) i j = cfg.T0 := by
  simp only [stepCell]
  split
  · rfl
  · ring_nf
    rw [if_neg (not_lt.2 h50), if_neg (lt_irrefl _)]

lemma tigStepCell_uniform_zero (cfg : SimConfig ℝ) (i j : ℕ) :
    tigStepCell cfg (fun _ => cfg.T0) (fun _ => 0) i j = cfg.T0 := by
  simp only [tigStepCell]
  split
  · rfl
  · ring

lemma weldRun_uniform_zero (cfg : SimConfig ℝ) (hQ : cfg.Qtotal = 0)
    (h50 : cfg.T0 ≤ 5000) (k : ℕ) :
    weldRun cfg k = (fun _ => cfg.T0, fun _ => cfg.T0) := by
  induction k with
  | zero => rfl
  | succ n ih =>
    have hdq : driverQvol cfg (((n + 1 : ℕ) : ℝ) * cfg.dt) = fun _ => 0 :=
      funext fun m => driverQvol_zeroQ cfg hQ _ m
    have hstep : solveTimeStep cfg (fun _ => cfg.T0) (fun _ => 0) = fun _ => cfg.T0 :=
      funext fun m => stepCell_uniform_zero cfg h50 _ _
    simp only [weldRun, ih, hdq, hstep]
    rw [show updateTmax (fun _ => cfg.T0) (fun _ => cfg.T0) = (fun _ : ℕ => cfg.T0) from
      funext fun m => max_self _]

lemma tigRun_uniform_zero (cfg : SimConfig ℝ) (hQ : cfg.eta * cfg.V * cfg.I = 0)
    (k : ℕ) :
    tigRun cfg k = (fun _ => cfg.T0, fun _ => cfg.T0) := by
  induction k with
  | zero => rfl
  | succ n ih =>
    have hdq : tigQvol cfg (((n + 1 : ℕ) : ℝ) * cfg.dt) = fun _ => 0 :=
      funext fun m => tigQvol_zeroQ cfg hQ _ m
    have hstep : tigStepField cfg (fun _ => cfg.T0) (fun _ => 0) = fun _ => cfg.T0 :=
      funext fun m => tigStepCell_uniform_zero cfg _ _
    simp only [tigRun, ih, hdq, hstep]
    rw [show tigUpdateTmax (fun _ => cfg.T0) (fun _ => cfg.T0) = (fun _ : ℕ => cfg.T0) from
      funext fun m => if_neg (lt_irrefl _)]

end ZeroPower

/-- C7 (amended): with zero total power the volumetric source is zero at every
cell and, starting from the uniform `T0` field, the field stays exactly `T0`
for all steps — in `TIGSimulator` unconditionally, in `WeldingSimulation`
provided `T0 ≤ 5000` (otherwise the clamp ceiling overrides `T0`; see the
counterexample). Each hypothesis scopes only the clauses about its variant. -/
theorem C7_zero_power_inert (cfg : SimConfig ℝ) :
    (cfg.Qtotal = 0 → ∀ t : ℝ, ∀ n : ℕ, driverQvol cfg t n = 0) ∧
    (cfg.Qtotal = 0 → cfg.T0 ≤ 5000 →
      ∀ k n : ℕ, (weldRun cfg k).1 n = cfg.T0 ∧ (weldRun cfg k).2 n = cfg.T0) ∧
    (cfg.eta * cfg.V * cfg.I = 0 → ∀ t : ℝ, ∀ n : ℕ, tigQvol cfg t n = 0) ∧
    (cfg.eta * cfg.V * cfg.I = 0 →
      ∀ k n : ℕ, (tigRun cfg k).1 n = cfg.T0 ∧ (tigRun cfg k).2 n = cfg.T0) := by
  refine ⟨fun hQ t n => driverQvol_zeroQ cfg hQ t n, fun hQ h50 k n => ?_,
    fun hQtig t n => tigQvol_zeroQ cfg hQtig t n, fun hQtig k n => ?_⟩
  · rw [weldRun_uniform_zero cfg hQ h50 k]
    exact ⟨rfl, rfl⟩
  · rw [tigRun_uniform_zero cfg hQtig k]
    exact ⟨rfl, rfl⟩

/-- Witness for C7 (amended): default-like config with `I = 0`, exercising both
the `WeldingSimulation` clause (discharging `Q_total = 0` and `T0 ≤ 5000`) and
the unconditional `TIGSimulator` clause (discharging `eta * V * I = 0`). -/
theorem C7_zero_power_inert_witness :
    (weldRun { cfgR with I := 0 } 3).1 5 = ({ cfgR with I := 0 } : SimConfig ℝ).T0 ∧
    (tigRun { cfgR with I := 0 } 3).1 5 = ({ cfgR with I := 0 } : SimConfig ℝ).T0 :=
  ⟨((C7_zero_power_inert { cfgR with I := 0 }).2.1
      (by norm_num [SimConfig.Qtotal, deriveEta, cfgR]) (by norm_num [cfgR]) 3 5).1,
    ((C7_zero_power_inert { cfgR with I := 0 }).2.2.2
      (by norm_num [cfgR]) 3 5).1⟩

/-- Counterexample to C7 as stated: with `T0 = 6000 > 5000` and zero power, the
uniform-`T0` field is not preserved by `WeldingSimulation` — the clamp ceiling
rewrites interior cells to 5000. -/
theorem C7_ceiling_overrides_cex :
    ({ cfgQ with T0 := 6000 } : SimConfig ℚ).Qtotal = 0 ∧
    solveTimeStep { cfgQ with T0 := 6000 } (fun _ => 6000) (fun _ => 0)
        (idx { cfgQ with T0 := 6000 } 1 1) ≠ 6000 := by
  constructor
  · norm_num [SimConfig.Qtotal, deriveEta, cfgQ]
  · norm_num [solveTimeStep, stepCell, idx, isBoundary, kArr, cpArr, rhoArr, matAt,
      Material.get_k, Material.get_cp, Material.get_rho, dx, dy, Xc, xcoord, ycoord,
      midpoint, cfgQ, matBase, min_def]

/-- C4 (amended): in both variants, once `x_arc > Lx` the volumetric source is
zero at every cell and the flux computation is suppressed; while `x_arc ≤ Lx`,
`WeldingSimulation` sets `Q_vol = q_surf / thickness`, whereas `TIGSimulator`
uses the surface flux directly with no thickness division. -/
theorem C4_source_gating (cfg : SimConfig ℝ) (t : ℝ) (n : ℕ) :
    (cfg.Lx < cfg.x_start + cfg.v_weld * t →
      driverQvol cfg t n = 0 ∧ tigQvol cfg t n = 0) ∧
    (cfg.x_start + cfg.v_weld * t ≤ cfg.Lx →
      driverQvol cfg t n =
        computeGoldakHeatFlux cfg cfg.Qtotal (cfg.x_start + cfg.v_weld * t) n /
          cfg.thickness ∧
      tigQvol cfg t n =
        tigHeatFlux cfg (cfg.eta * cfg.V * cfg.I) (cfg.x_start + cfg.v_weld * t) n) := by
  constructor
  · intro h
    constructor
    · simp only [driverQvol]
      rw [if_neg (not_le.2 h)]
    · simp only [tigQvol]
      rw [if_neg (not_le.2 h)]
  · intro h
    constructor
    · simp only [driverQvol]
      rw [if_pos h]
    · simp only [tigQvol]
      rw [if_pos h]

/-- Witness for C4 (amended): at a late time the arc has exited the plate and
both drivers produce a zero volumetric source. -/
theorem C4_source_gating_witness :
    driverQvol cfgR 1000000000 0 = 0 ∧ tigQvol cfgR 1000000000 0 = 0 :=
  (C4_source_gating cfgR 1000000000 0).1 (by norm_num [cfgR])

/-- The concrete configuration for the C4 counterexample: unit Goldak scales,
unit electrical parameters, `thickness = 0.006`, arc on the plate. -/
def cfgC : SimConfig ℝ :=
  { Lx := 2, Ly := 2, thickness := 0.006, nx := 3, ny := 3
    mat1 := { rho := 1, cp := 1, k := 1, T_melt := 200000, T_crit := 100000 }
    mat2 := { rho := 1, cp := 1, k := 1, T_melt := 200000, T_crit := 100000 }
    V := 1, I := 1, eta := 1, v_weld := 0, x_start := 0, y_arc := 0
    a := 1, b := 1, cf := 1, cr := 1, ff := 1, fr := 1
    T0 := 0, dt := 1, weld_process := "TIG", use_gas := true }

/-- Counterexample to C4 as stated: `TIGSimulator` does not divide the surface
flux by the plate thickness — at a cell with strictly positive flux, `Q_vol`
differs from `q_surf / thickness`. -/
theorem C4_tig_no_thickness_cex :
    tigQvol cfgC 1 (idx cfgC 1 1) ≠
      tigHeatFlux cfgC (cfgC.eta * cfgC.V * cfgC.I) (cfgC.x_start + cfgC.v_weld * 1)
        (idx cfgC 1 1) / cfgC.thickness := by
  have harc : cfgC.x_start + cfgC.v_weld * 1 ≤ cfgC.Lx := by norm_num [cfgC]
  have hQ : tigQvol cfgC 1 (idx cfgC 1 1) =
      tigHeatFlux cfgC (cfgC.eta * cfgC.V * cfgC.I) (cfgC.x_start + cfgC.v_weld * 1)
        (idx cfgC 1 1) := by
    simp only [tigQvol]
    rw [if_pos harc]
  have hq : 0 < tigHeatFlux cfgC (cfgC.eta * cfgC.V * cfgC.I)
      (cfgC.x_start + cfgC.v_weld * 1) (idx cfgC 1 1) := by
    have hxi : (0 : ℝ) ≤ tigXc cfgC (idx cfgC 1 1) - (cfgC.x_start + cfgC.v_weld * 1) := by
      norm_num [tigXc, tigDx, idx, cfgC]
    rw [tigHeatFlux, goldakFluxProfileB, if_pos hxi]
    norm_num [cfgC]
    positivity
  rw [hQ]
  intro heq
  rw [show cfgC.thickness = 0.006 from rfl] at heq
  have h2 : tigHeatFlux cfgC (cfgC.eta * cfgC.V * cfgC.I)
      (cfgC.x_start + cfgC.v_weld * 1) (idx cfgC 1 1) * 0.006 =
      tigHeatFlux cfgC (cfgC.eta * cfgC.V * cfgC.I)
        (cfgC.x_start + cfgC.v_weld * 1) (idx cfgC 1 1) := by
    rw [mul_comm]
    rw [eq_comm, div_eq_iff (by norm_num : (0.006 : ℝ) ≠ 0)] at heq
    linarith [heq]
  nlinarith [hq, h2]

section MirrorSymmetry

lemma Xc_idx (cfg : SimConfig α) {i : ℕ} (j : ℕ) (hi : i < cfg.nx) :
    Xc cfg (idx cfg i j) = xcoord cfg i := by
  rw [Xc, idx_mod cfg j hi]

lemma Yc_idx (cfg : SimConfig α) {i : ℕ} (j : ℕ) (hi : i < cfg.nx) :
    Yc cfg (idx cfg i j) = ycoord cfg j := by
  rw [Yc, idx_div cfg j hi]

lemma ycoord_mirror (cfg : SimConfig ℝ) (hny : 2 ≤ cfg.ny) {j : ℕ} (hj : j < cfg.ny) :
    ycoord cfg (cfg.ny - 1 - j) = -ycoord cfg j := by
  rw [ycoord, ycoord]
  have hle : j ≤ cfg.ny - 1 := by omega
  have hcast : ((cfg.ny - 1 - j : ℕ) : ℝ) = ((cfg.ny - 1 : ℕ) : ℝ) - (j : ℝ) :=
    Nat.cast_sub hle
  have hc2 : ((cfg.ny - 1 : ℕ) : ℝ) = (cfg.ny : ℝ) - 1 := by
    rw [Nat.cast_sub (by omega : 1 ≤ cfg.ny), Nat.cast_one]
  have hNz : ((cfg.ny : ℝ) - 1) ≠ 0 := by
    have h2 : (2 : ℝ) ≤ (cfg.ny : ℝ) := by exact_mod_cast hny
    linarith
  rw [hcast, hc2]
  field_simp
  ring

lemma isBoundary_mirror (cfg : SimConfig α) {i j : ℕ} (hny : 2 ≤ cfg.ny)
    (hj : j < cfg.ny) :
    isBoundary cfg i (cfg.ny - 1 - j) = isBoundary cfg i j := by
  have h : (isBoundary cfg i (cfg.ny - 1 - j) = true) ↔ (isBoundary cfg i j = true) := by
    simp only [isBoundary, Bool.or_eq_true, beq_iff_eq]
    omega
  exact Bool.eq_iff_iff.2 h

lemma goldakFluxProfileA_even (cfg : SimConfig ℝ) (Qtot xi eta : ℝ) :
    goldakFluxProfileA cfg Qtot xi (-eta) = goldakFluxProfileA cfg Qtot xi eta := by
  simp only [goldakFluxProfileA, neg_mul_neg]

lemma driverQvol_mirror (cfg : SimConfig ℝ) (hy : cfg.y_arc = 0) (hny : 2 ≤ cfg.ny)
    (t : ℝ) :
    MirrorSym cfg (driverQvol cfg t) := by
  intro i j hi hj
  simp only [driverQvol]
  split_ifs with h
  · simp only [computeGoldakHeatFlux]
    rw [Xc_idx cfg j hi, Xc_idx cfg _ hi, Yc_idx cfg j hi, Yc_idx cfg _ hi, hy,
      ycoord_mirror cfg hny hj, sub_zero, sub_zero, goldakFluxProfileA_even]
  · rfl

lemma stepCell_mirror (cfg : SimConfig ℝ) (hny : 2 ≤ cfg.ny) (T Qvol : ℕ → ℝ)
    (hT : MirrorSym cfg T) (hQ : MirrorSym cfg Qvol) {i j : ℕ}
    (hi : i < cfg.nx) (hj : j < cfg.ny) :
    stepCell cfg T Qvol i (cfg.ny - 1 - j) = stepCell cfg T Qvol i j := by
  simp only [stepCell, isBoundary_mirror cfg hny hj]
  by_cases hb : isBoundary cfg i j = true
  · rw [if_pos hb, if_pos hb]
  · rw [if_neg hb, if_neg hb]
    have hbp : ¬(i = 0 ∨ i = cfg.nx - 1 ∨ j = 0 ∨ j = cfg.ny - 1) := by
      intro hcon
      exact hb (isBoundary_true_of cfg hcon)
    push_neg at hbp
    obtain ⟨hi0, hi1, hj0, hj1⟩ := hbp
    have hT0 : T (idx cfg i (cfg.ny - 1 - j)) = T (idx cfg i j) := (hT i j hi hj).symm
    have hTp : T (idx cfg i (cfg.ny - 1 - j + 1)) = T (idx cfg i (j - 1)) := by
      have e : cfg.ny - 1 - j + 1 = cfg.ny - 1 - (j - 1) := by omega
      rw [e]
      exact (hT i (j - 1) hi (by omega)).symm
    have hTm : T (idx cfg i (cfg.ny - 1 - j - 1)) = T (idx cfg i (j + 1)) := by
      have e : cfg.ny - 1 - j - 1 = cfg.ny - 1 - (j + 1) := by omega
      rw [e]
      exact (hT i (j + 1) hi (by omega)).symm
    have hTxp : T (idx cfg (i + 1) (cfg.ny - 1 - j)) = T (idx cfg (i + 1) j) :=
      (hT (i + 1) j (by omega) hj).symm
    have hTxm : T (idx cfg (i - 1) (cfg.ny - 1 - j)) = T (idx cfg (i - 1) j) :=
      (hT (i - 1) j (by omega) hj).symm
    have hQ0 : Qvol (idx cfg i (cfg.ny - 1 - j)) = Qvol (idx cfg i j) := (hQ i j hi hj).symm
    have hmat : matAt cfg (idx cfg i (cfg.ny - 1 - j)) = matAt cfg (idx cfg i j) := by
      rw [matAt, matAt, Xc_idx cfg _ hi, Xc_idx cfg _ hi]
    simp only [kArr, cpArr, rhoArr, hmat, hT0, hTp, hTm, hTxp, hTxm, hQ0]
    have hd2y : T (idx cfg i (j - 1)) - 2 * T (idx cfg i j) + T (idx cfg i (j + 1)) =
        T (idx cfg i (j + 1)) - 2 * T (idx cfg i j) + T (idx cfg i (j - 1)) := by
      ring
    rw [hd2y]

lemma solveTimeStep_mirror (cfg : SimConfig ℝ) (hny : 2 ≤ cfg.ny) (T Qvol : ℕ → ℝ)
    (hT : MirrorSym cfg T) (hQ : MirrorSym cfg Qvol) :
    MirrorSym cfg (solveTimeStep cfg T Qvol) := by
  intro i j hi hj
  rw [solveTimeStep_idx cfg T Qvol j hi, solveTimeStep_idx cfg T Qvol _ hi]
  exact (stepCell_mirror cfg hny T Qvol hT hQ hi hj).symm

lemma updateTmax_mirror (cfg : SimConfig ℝ) {F G : ℕ → ℝ}
    (hF : MirrorSym cfg F) (hG : MirrorSym cfg G) :
    MirrorSym cfg (updateTmax F G) := by
  intro i j hi hj
  simp only [updateTmax]
  rw [hF i j hi hj, hG i j hi hj]

lemma const_mirror (cfg : SimConfig ℝ) (c : ℝ) : MirrorSym cfg (fun _ => c) :=
  fun _ _ _ _ => rfl

end MirrorSymmetry

/-- C10: with the arc on the centerline (`y_arc = 0`) and at least two rows
(the grid is then symmetric: `y[ny-1-j] = -y[j]` exactly), one
`WeldingSimulation` step preserves mirror symmetry of the field across the
centerline, the driver's volumetric source is mirror-symmetric at every time,
and hence, starting from the uniform `T0` field, both `T` and `T_max` are
mirror-symmetric after every step of the run. -/
theorem C10_mirror_symmetry (cfg : SimConfig ℝ) (hy : cfg.y_arc = 0)
    (hny : 2 ≤ cfg.ny) :
    (∀ j : ℕ, j < cfg.ny → ycoord cfg (cfg.ny - 1 - j) = -ycoord cfg j) ∧
    (∀ T Qvol : ℕ → ℝ, MirrorSym cfg T → MirrorSym cfg Qvol →
      MirrorSym cfg (solveTimeStep cfg T Qvol)) ∧
    (∀ t : ℝ, MirrorSym cfg (driverQvol cfg t)) ∧
    (∀ k : ℕ, MirrorSym cfg (weldRun cfg k).1 ∧ MirrorSym cfg (weldRun cfg k).2) := by
  refine ⟨fun j hj => ycoord_mirror cfg hny hj,
    fun T Qvol hT hQ => solveTimeStep_mirror cfg hny T Qvol hT hQ,
    fun t => driverQvol_mirror cfg hy hny t, ?_⟩
  intro k
  induction k with
  | zero => exact ⟨const_mirror cfg _, const_mirror cfg _⟩
  | succ n ih =>
    have hstep : MirrorSym cfg (weldRun cfg (n + 1)).1 := by
      simp only [weldRun]
      exact solveTimeStep_mirror cfg hny _ _ ih.1 (driverQvol_mirror cfg hy hny _)
    refine ⟨hstep, ?_⟩
    simp only [weldRun]
    exact updateTmax_mirror cfg ih.2 hstep

/-- Witness for C10 on a concrete centerline configuration. -/
theorem C10_mirror_symmetry_witness :
    MirrorSym cfgC (weldRun cfgC 2).1 ∧ MirrorSym cfgC (weldRun cfgC 2).2 :=
  (C10_mirror_symmetry cfgC rfl (by decide)).2.2.2 2

section GoldakNormalization

lemma gaussLine (c A q : ℝ) :
    ∫ y : ℝ, c * Real.exp (A - q * y ^ 2) = c * Real.exp A * Real.sqrt (Real.pi / q) := by
  have hsp : ∀ y : ℝ, c * Real.exp (A - q * y ^ 2) =
      (c * Real.exp A) * Real.exp (-q * y ^ 2) := by
    intro y
    rw [mul_assoc, ← Real.exp_add]
    congr 1
    ring
  simp_rw [hsp]
  rw [integral_mul_left, integral_gaussian]

lemma halfGaussFwd (cF cR p pr q : ℝ) :
    (∫ x in Ioi (0 : ℝ), ∫ y : ℝ,
        if 0 ≤ x then cF * Real.exp (-p * x ^ 2 - q * y ^ 2)
        else cR * Real.exp (-pr * x ^ 2 - q * y ^ 2))
      = cF * (Real.sqrt (Real.pi / p) / 2) * Real.sqrt (Real.pi / q) := by
  have hinner : ∀ x : ℝ,
      (∫ y : ℝ, if 0 ≤ x then cF * Real.exp (-p * x ^ 2 - q * y ^ 2)
        else cR * Real.exp (-pr * x ^ 2 - q * y ^ 2))
      = if 0 ≤ x then cF * Real.exp (-p * x ^ 2) * Real.sqrt (Real.pi / q)
        else cR * Real.exp (-pr * x ^ 2) * Real.sqrt (Real.pi / q) := by
    intro x
    by_cases hx : 0 ≤ x
    · simp only [if_pos hx]
      exact gaussLine cF (-p * x ^ 2) q
    · simp only [if_neg hx]
      exact gaussLine cR (-pr * x ^ 2) q
  simp_rw [hinner]
  have hcong : EqOn
      (fun x : ℝ => if 0 ≤ x then cF * Real.exp (-p * x ^ 2) * Real.sqrt (Real.pi / q)
        else cR * Real.exp (-pr * x ^ 2) * Real.sqrt (Real.pi / q))
      (fun x : ℝ => (cF * Real.sqrt (Real.pi / q)) * Real.exp (-p * x ^ 2)) ( Ioi 0) := by
    intro x hx
    simp only [if_pos (le_of_lt ( mem_Ioi.1 hx))]
    ring
  rw [setIntegral_congr_fun measurableSet_Ioi hcong, integral_mul_left, integral_gaussian_Ioi]
  ring

lemma halfGaussRear (cF cR p pr q : ℝ) :
    (∫ x in Iio (0 : ℝ), ∫ y : ℝ,
        if 0 ≤ x then cF * Real.exp (-p * x ^ 2 - q * y ^ 2)
        else cR * Real.exp (-pr * x ^ 2 - q * y ^ 2))
      = cR * (Real.sqrt (Real.pi / pr) / 2) * Real.sqrt (Real.pi / q) := by
  have hinner : ∀ x : ℝ,
      (∫ y : ℝ, if 0 ≤ x then cF * Real.exp (-p * x ^ 2 - q * y ^ 2)
        else cR * Real.exp (-pr * x ^ 2 - q * y ^ 2))
      = if 0 ≤ x then cF * Real.exp (-p * x ^ 2) * Real.sqrt (Real.pi / q)
        else cR * Real.exp (-pr * x ^ 2) * Real.sqrt (Real.pi / q) := by
    intro x
    by_cases hx : 0 ≤ x
    · simp only [if_pos hx]
      exact gaussLine cF (-p * x ^ 2) q
    · simp only [if_neg hx]
      exact gaussLine cR (-pr * x ^ 2) q
  simp_rw [hinner]
  have hcong : EqOn
      (fun x : ℝ => if 0 ≤ x then cF * Real.exp (-p * x ^ 2) * Real.sqrt (Real.pi / q)
        else cR * Real.exp (-pr * x ^ 2) * Real.sqrt (Real.pi / q))
      (fun x : ℝ => (cR * Real.sqrt (Real.pi / q)) * Real.exp (-pr * x ^ 2)) ( Iio 0) := by
    intro x hx
    simp only [if_neg (not_le.2 ( mem_Iio.1 hx))]
    ring
  rw [setIntegral_congr_fun measurableSet_Iio hcong, integral_mul_left]
  rw [← integral_Iic_eq_integral_Iio]
  have h1 : (∫ x in Iic (0 : ℝ), Real.exp (-pr * x ^ 2)) =
      ∫ x in Iic (0 : ℝ), Real.exp (-pr * (-x) ^ 2) := by
    refine (setIntegral_congr_fun measurableSet_Iic fun x _ => ?_).symm
    rw [neg_sq]
  rw [h1, integral_comp_neg_Iic 0 (fun x => Real.exp (-pr * x ^ 2)), neg_zero,
    integral_gaussian_Ioi]
  ring

lemma setIntegral_Ioi_sub (g : ℝ → ℝ) (c : ℝ) :
    (∫ x in Ioi c, g (x - c)) = ∫ x in Ioi (0 : ℝ), g x := by
  have h := (measurePreserving_add_right (volume : Measure ℝ) c).setIntegral_preimage_emb
    (measurableEmbedding_addRight c) (fun y => g (y - c)) ( Ioi c)
  have hpre : Set.preimage (fun x : ℝ => x + c) ( Ioi c) = Ioi (0 : ℝ) := by
    ext x
    simp [ mem_Ioi]
  rw [hpre] at h
  simp only [add_sub_cancel_right] at h
  exact h.symm

lemma setIntegral_Iio_sub (g : ℝ → ℝ) (c : ℝ) :
    (∫ x in Iio c, g (x - c)) = ∫ x in Iio (0 : ℝ), g x := by
  have h := (measurePreserving_add_right (volume : Measure ℝ) c).setIntegral_preimage_emb
    (measurableEmbedding_addRight c) (fun y => g (y - c)) ( Iio c)
  have hpre : Set.preimage (fun x : ℝ => x + c) ( Iio c) = Iio (0 : ℝ) := by
    ext x
    simp [ mem_Iio]
  rw [hpre] at h
  simp only [add_sub_cancel_right] at h
  exact h.symm

lemma profileA_shape (cfg : SimConfig ℝ) (Qtot : ℝ) (xi y : ℝ) :
    goldakFluxProfileA cfg Qtot xi y =
      if 0 ≤ xi then
        cfg.ff * Qtot / (cfg.a * cfg.b * Real.pi) *
          Real.exp (-(1 / (cfg.a * cfg.a)) * xi ^ 2 - (1 / (cfg.b * cfg.b)) * y ^ 2)
      else
        cfg.fr * Qtot / (cfg.a * cfg.b * Real.pi) *
          Real.exp (-(1 / (cfg.a * cfg.a)) * xi ^ 2 - (1 / (cfg.b * cfg.b)) * y ^ 2) := by
  rw [goldakFluxProfileA]
  split_ifs with h
  all_goals
    congr 1
    congr 1
    ring

lemma profileB_shape (cfg : SimConfig ℝ) (Qtot : ℝ) (xi y : ℝ) :
    goldakFluxProfileB cfg Qtot xi y =
      if 0 ≤ xi then
        6 * cfg.ff * Qtot / (cfg.a * cfg.b * cfg.cf * Real.pi * Real.sqrt Real.pi) *
          Real.exp (-(3 / (cfg.cf * cfg.cf)) * xi ^ 2 - (3 / (cfg.b * cfg.b)) * y ^ 2)
      else
        6 * cfg.fr * Qtot / (cfg.a * cfg.b * cfg.cr * Real.pi * Real.sqrt Real.pi) *
          Real.exp (-(3 / (cfg.cr * cfg.cr)) * xi ^ 2 - (3 / (cfg.b * cfg.b)) * y ^ 2) := by
  rw [goldakFluxProfileB]
  split_ifs with h
  all_goals
    congr 1
    congr 1
    ring

lemma ycoord_shift_integral (cfg : SimConfig ℝ) (P : ℝ → ℝ → ℝ) (xi : ℝ) :
    (∫ y : ℝ, P xi (y - cfg.y_arc)) = ∫ y : ℝ, P xi y := by
  have h := integral_add_right_eq_self (μ := (volume : Measure ℝ))
    (fun y => P xi y) (-cfg.y_arc)
  simpa [sub_eq_add_neg] using h

lemma sqrt_prod_inv_sq (u v : ℝ) (hu : 0 < u) (hv : 0 < v) :
    Real.sqrt (Real.pi / (1 / (u * u))) * Real.sqrt (Real.pi / (1 / (v * v))) =
      Real.pi * u * v := by
  rw [← Real.sqrt_mul (by positivity)]
  rw [show Real.pi / (1 / (u * u)) * (Real.pi / (1 / (v * v))) = (Real.pi * u * v) ^ 2 from by
    field_simp
    ring]
  exact Real.sqrt_sq (by positivity)

lemma sqrt_prod_three (u v : ℝ) (hu : 0 < u) (hv : 0 < v) :
    Real.sqrt (Real.pi / (3 / (u * u))) * Real.sqrt (Real.pi / (3 / (v * v))) =
      Real.pi * u * v / 3 := by
  rw [← Real.sqrt_mul (by positivity)]
  rw [show Real.pi / (3 / (u * u)) * (Real.pi / (3 / (v * v))) = (Real.pi * u * v / 3) ^ 2 from by
    field_simp
    ring]
  exact Real.sqrt_sq (by positivity)

lemma forwardIntegralA_eq (cfg : SimConfig ℝ) (Qtot x_arc : ℝ)
    (ha : 0 < cfg.a) (hb : 0 < cfg.b) :
    forwardIntegralA cfg Qtot x_arc = cfg.ff * Qtot / 2 := by
  rw [forwardIntegralA]
  simp_rw [ycoord_shift_integral cfg (goldakFluxProfileA cfg Qtot)]
  rw [show (∫ x in Ioi x_arc, ∫ y : ℝ, goldakFluxProfileA cfg Qtot (x - x_arc) y) =
      ∫ x in Ioi x_arc,
        (fun xi => ∫ y : ℝ, goldakFluxProfileA cfg Qtot xi y) (x - x_arc) from rfl]
  rw [setIntegral_Ioi_sub (fun xi => ∫ y : ℝ, goldakFluxProfileA cfg Qtot xi y) x_arc]
  simp_rw [profileA_shape cfg Qtot]
  rw [halfGaussFwd]
  rw [show cfg.ff * Qtot / (cfg.a * cfg.b * Real.pi) *
      (Real.sqrt (Real.pi / (1 / (cfg.a * cfg.a))) / 2) *
      Real.sqrt (Real.pi / (1 / (cfg.b * cfg.b))) =
      cfg.ff * Qtot / (cfg.a * cfg.b * Real.pi) *
        (Real.sqrt (Real.pi / (1 / (cfg.a * cfg.a))) *
          Real.sqrt (Real.pi / (1 / (cfg.b * cfg.b)))) / 2 from by ring]
  rw [sqrt_prod_inv_sq cfg.a cfg.b ha hb]
  field_simp
  ring

lemma rearIntegralA_eq (cfg : SimConfig ℝ) (Qtot x_arc : ℝ)
    (ha : 0 < cfg.a) (hb : 0 < cfg.b) :
    rearIntegralA cfg Qtot x_arc = cfg.fr * Qtot / 2 := by
  rw [rearIntegralA]
  simp_rw [ycoord_shift_integral cfg (goldakFluxProfileA cfg Qtot)]
  rw [show (∫ x in Iio x_arc, ∫ y : ℝ, goldakFluxProfileA cfg Qtot (x - x_arc) y) =
      ∫ x in Iio x_arc,
        (fun xi => ∫ y : ℝ, goldakFluxProfileA cfg Qtot xi y) (x - x_arc) from rfl]
  rw [setIntegral_Iio_sub (fun xi => ∫ y : ℝ, goldakFluxProfileA cfg Qtot xi y) x_arc]
  simp_rw [profileA_shape cfg Qtot]
  rw [halfGaussRear]
  rw [show cfg.fr * Qtot / (cfg.a * cfg.b * Real.pi) *
      (Real.sqrt (Real.pi / (1 / (cfg.a * cfg.a))) / 2) *
      Real.sqrt (Real.pi / (1 / (cfg.b * cfg.b))) =
      cfg.fr * Qtot / (cfg.a * cfg.b * Real.pi) *
        (Real.sqrt (Real.pi / (1 / (cfg.a * cfg.a))) *
          Real.sqrt (Real.pi / (1 / (cfg.b * cfg.b)))) / 2 from by ring]
  rw [sqrt_prod_inv_sq cfg.a cfg.b ha hb]
  field_simp
  ring

lemma forwardIntegralB_eq (cfg : SimConfig ℝ) (Qtot x_arc : ℝ)
    (ha : 0 < cfg.a) (hb : 0 < cfg.b) (hcf : 0 < cfg.cf) :
    forwardIntegralB cfg Qtot x_arc = cfg.ff * Qtot / (cfg.a * Real.sqrt Real.pi) := by
  rw [forwardIntegralB]
  simp_rw [ycoord_shift_integral cfg (goldakFluxProfileB cfg Qtot)]
  rw [show (∫ x in Ioi x_arc, ∫ y : ℝ, goldakFluxProfileB cfg Qtot (x - x_arc) y) =
      ∫ x in Ioi x_arc,
        (fun xi => ∫ y : ℝ, goldakFluxProfileB cfg Qtot xi y) (x - x_arc) from rfl]
  rw [setIntegral_Ioi_sub (fun xi => ∫ y : ℝ, goldakFluxProfileB cfg Qtot xi y) x_arc]
  simp_rw [profileB_shape cfg Qtot]
  rw [halfGaussFwd]
  rw [show 6 * cfg.ff * Qtot / (cfg.a * cfg.b * cfg.cf * Real.pi * Real.sqrt Real.pi) *
      (Real.sqrt (Real.pi / (3 / (cfg.cf * cfg.cf))) / 2) *
      Real.sqrt (Real.pi / (3 / (cfg.b * cfg.b))) =
      6 * cfg.ff * Qtot / (cfg.a * cfg.b * cfg.cf * Real.pi * Real.sqrt Real.pi) *
        (Real.sqrt (Real.pi / (3 / (cfg.cf * cfg.cf))) *
          Real.sqrt (Real.pi / (3 / (cfg.b * cfg.b)))) / 2 from by ring]
  rw [sqrt_prod_three cfg.cf cfg.b hcf hb]
  have hsq : (0 : ℝ) < Real.sqrt Real.pi := Real.sqrt_pos.2 Real.pi_pos
  field_simp
  ring

lemma rearIntegralB_eq (cfg : SimConfig ℝ) (Qtot x_arc : ℝ)
    (ha : 0 < cfg.a) (hb : 0 < cfg.b) (hcr : 0 < cfg.cr) :
    rearIntegralB cfg Qtot x_arc = cfg.fr * Qtot / (cfg.a * Real.sqrt Real.pi) := by
  rw [rearIntegralB]
  simp_rw [ycoord_shift_integral cfg (goldakFluxProfileB cfg Qtot)]
  rw [show (∫ x in Iio x_arc, ∫ y : ℝ, goldakFluxProfileB cfg Qtot (x - x_arc) y) =
      ∫ x in Iio x_arc,
        (fun xi => ∫ y : ℝ, goldakFluxProfileB cfg Qtot xi y) (x - x_arc) from rfl]
  rw [setIntegral_Iio_sub (fun xi => ∫ y : ℝ, goldakFluxProfileB cfg Qtot xi y) x_arc]
  simp_rw [profileB_shape cfg Qtot]
  rw [halfGaussRear]
  rw [show 6 * cfg.fr * Qtot / (cfg.a * cfg.b * cfg.cr * Real.pi * Real.sqrt Real.pi) *
      (Real.sqrt (Real.pi / (3 / (cfg.cr * cfg.cr))) / 2) *
      Real.sqrt (Real.pi / (3 / (cfg.b * cfg.b))) =
      6 * cfg.fr * Qtot / (cfg.a * cfg.b * cfg.cr * Real.pi * Real.sqrt Real.pi) *
        (Real.sqrt (Real.pi / (3 / (cfg.cr * cfg.cr))) *
          Real.sqrt (Real.pi / (3 / (cfg.b * cfg.b)))) / 2 from by ring]
  rw [sqrt_prod_three cfg.cr cfg.b hcr hb]
  have hsq : (0 : ℝ) < Real.sqrt Real.pi := Real.sqrt_pos.2 Real.pi_pos
  field_simp
  ring

end GoldakNormalization

/-- C3 (amended): for every arc position and every `Q_total`, the forward half
plane integral of the 2-parameter flux is `(ff/2) * Q_total` and the rearward
one is `(fr/2) * Q_total` (so with the conventional `ff + fr = 2` the total is
`Q_total`); under the 4-parameter normalization of `cpp-weld` the halves
integrate to `ff * Q_total / (a * sqrt pi)` and `fr * Q_total / (a * sqrt pi)`
respectively — not to `ff * Q_total` and `fr * Q_total`. -/
theorem C3_goldak_normalization (cfg : SimConfig ℝ) (Qtot x_arc : ℝ)
    (ha : 0 < cfg.a) (hb : 0 < cfg.b) (hcf : 0 < cfg.cf) (hcr : 0 < cfg.cr) :
    forwardIntegralA cfg Qtot x_arc = cfg.ff * Qtot / 2 ∧
    rearIntegralA cfg Qtot x_arc = cfg.fr * Qtot / 2 ∧
    forwardIntegralB cfg Qtot x_arc = cfg.ff * Qtot / (cfg.a * Real.sqrt Real.pi) ∧
    rearIntegralB cfg Qtot x_arc = cfg.fr * Qtot / (cfg.a * Real.sqrt Real.pi) :=
  ⟨forwardIntegralA_eq cfg Qtot x_arc ha hb, rearIntegralA_eq cfg Qtot x_arc ha hb,
    forwardIntegralB_eq cfg Qtot x_arc ha hb hcf, rearIntegralB_eq cfg Qtot x_arc ha hb hcr⟩

/-- Witness for C3 (amended) on the concrete unit configuration. -/
theorem C3_goldak_normalization_witness :
    forwardIntegralA cfgC 1 0 = cfgC.ff * 1 / 2 :=
  (C3_goldak_normalization cfgC 1 0 (by norm_num [cfgC]) (by norm_num [cfgC])
    (by norm_num [cfgC]) (by norm_num [cfgC])).1

/-- Counterexample to C3 as stated: on the unit configuration with
`Q_total = 1` the forward half-plane integral equals `ff/2`, not
`ff * Q_total`. -/
theorem C3_half_normalization_cex :
    forwardIntegralA cfgC 1 0 ≠ cfgC.ff * 1 := by
  rw [forwardIntegralA_eq cfgC 1 0 (by norm_num [cfgC]) (by norm_num [cfgC])]
  norm_num [cfgC]

end Welding
